import Mathlib

/-
Verification of the sofa2hrir conversion tool (tools/sofa2hrir.py).

The script converts a SOFA HRIR measurement set into the plain-text .hrir
format.  Its numeric pipeline is embedded here shallowly:

  * Python/numpy floating-point values are idealised as real numbers (ℝ);
    the square-root constants of the tetrahedral grid are exact `Real.sqrt`
    terms.
  * numpy arrays become `Fin`-indexed functions (fixed-shape matrices) or
    Lean lists (the measurement axis, whose length varies with the input
    file); fallible array indexing becomes `Option`-valued access, and the
    overall run is a trace of I/O events in program order.
  * `print` calls become abstract output lines; the decimal rendering of a
    float (Python's full-precision `str`) is abstracted as a parameter
    `ℝ → String` of the renderer, since only the layout and the separator
    are specified.
-/

open BigOperators

namespace Sofa2Hrir

/-! ## The tetrahedral grid and the matrices -/

/-- The 4×3 array `tetrahedron` from the source, row by row:
`[-sqrt(2/3), sqrt(2/9), -1/3]`, `[sqrt(2/3), sqrt(2/9), -1/3]`,
`[0, -sqrt(8/9), -1/3]`, `[0, 0, 1]`. -/
noncomputable def tetrahedron (i : Fin 4) (j : Fin 3) : ℝ :=
  match i.val, j.val with
  | 0, 0 => -Real.sqrt (2 / 3)
  | 0, 1 => Real.sqrt (2 / 9)
  | 0, _ => -(1 / 3)
  | 1, 0 => Real.sqrt (2 / 3)
  | 1, 1 => Real.sqrt (2 / 9)
  | 1, _ => -(1 / 3)
  | 2, 0 => 0
  | 2, 1 => -Real.sqrt (8 / 9)
  | 2, _ => -(1 / 3)
  | _, 0 => 0
  | _, 1 => 0
  | _, _ => 1

/-- The encode matrix `C = np.concatenate([np.ones((4, 1)) / np.sqrt(2),
tetrahedron], axis=1)`: column 0 is the constant `1/sqrt 2`, columns 1..3 are
the tetrahedron direction coordinates. -/
noncomputable def C (i j : Fin 4) : ℝ :=
  match j.val with
  | 0 => 1 / Real.sqrt 2
  | 1 => tetrahedron i 0
  | 2 => tetrahedron i 1
  | _ => tetrahedron i 2

/-- The decode matrix `CI = C.T` (the pseudo-inverse line is commented out in
the source). -/
noncomputable def CI (i j : Fin 4) : ℝ := C j i

/-- Entry `(j, k)` of the matrix product `Cᵗ · C`. -/
noncomputable def CtC (j k : Fin 4) : ℝ := ∑ i : Fin 4, C i j * C i k

/-- Euclidean inner product of tetrahedron rows `i` and `j`. -/
noncomputable def dotT (i j : Fin 4) : ℝ :=
  ∑ k : Fin 3, tetrahedron i k * tetrahedron j k

/-- Squared Euclidean norm of tetrahedron row `i`. -/
noncomputable def normSqT (i : Fin 4) : ℝ := ∑ k : Fin 3, tetrahedron i k ^ 2

/-! ## The dataset and the main pipeline -/

/-- One measurement of `Data.IR`: the left-ear and right-ear sample
sequences (the SOFA array is measurement × ear(2) × sample). -/
abbrev Meas := List ℝ × List ℝ

/-- The three variables the script reads from the input container:
`SourcePosition`, `Data.IR` and `Data.SamplingRate`. -/
structure Dataset where
  pos : List (List ℝ)
  ir : List Meas
  fs : ℝ

/-- The gain adjustment `ir *= 10` on one measurement. -/
noncomputable def scaleMeas (m : Meas) : Meas :=
  (m.1.map fun v => 10 * v, m.2.map fun v => 10 * v)

/-- The gain adjustment `ir *= 10` on the whole `Data.IR` array. -/
noncomputable def scaleIR (ir : List Meas) : List Meas := ir.map scaleMeas

/-- Elementwise `(a + b) / 2` of two measurements, both ears. -/
noncomputable def avgMeas (a b : Meas) : Meas :=
  (List.zipWith (fun x y => (x + y) / 2) a.1 b.1,
   List.zipWith (fun x y => (x + y) / 2) a.2 b.2)

/-- The `hrirs` list of the script: after the gain adjustment, measurements
289, 1276 and 777 and the average of measurements 21 and 796; `none` when a
hand-picked index is outside `Data.IR` (numpy raises IndexError there). -/
noncomputable def hrirsOf (ir : List Meas) : Option (List Meas) :=
  let s := scaleIR ir
  (s[289]?).bind fun h0 =>
  (s[1276]?).bind fun h1 =>
  (s[777]?).bind fun h2 =>
  (s[21]?).bind fun ha =>
  (s[796]?).bind fun hb =>
  some [h0, h1, h2, avgMeas ha hb]

/-- One line printed to the output file: the sampling-rate line, a row of
comma-joined values, or a blank line. -/
inductive OutLine
  | num (x : ℝ)
  | row (xs : List ℝ)
  | blank

/-- Column `i` of the decode matrix, `CI[:, i]`, in print order. -/
noncomputable def colCI (i : Fin 4) : List ℝ := [CI 0 i, CI 1 i, CI 2 i, CI 3 i]

/-- The lines the script writes to the output file: the sampling rate, a
blank line, then for each of the 4 columns of CI one group — the matrix
column, the left-ear samples and the right-ear samples of `hrirs[i]`, and a
terminating blank line. -/
noncomputable def outputLines (fs : ℝ) (hs : List Meas) : List OutLine :=
  [OutLine.num fs, OutLine.blank] ++
    (List.finRange 4).flatMap fun i =>
      [OutLine.row (colCI i),
       OutLine.row (hs.getD (i : ℕ) ([], [])).1,
       OutLine.row (hs.getD (i : ℕ) ([], [])).2,
       OutLine.blank]

/-- Text rendering of one output line, given a formatter `fmt` standing for
Python's full-precision `str` on floats: the values of a row are joined with
the separator ", ". -/
def renderLine (fmt : ℝ → String) : OutLine → String
  | OutLine.num x => fmt x
  | OutLine.row xs => String.intercalate ", " (xs.map fmt)
  | OutLine.blank => ""

/-- Modelled on numpy's `arctan2 y x`: the angle of the point `(x, y)`, in
`(-π, π]`, with `arctan2 0 0 = 0` as numpy returns. -/
noncomputable def arctan2 (y x : ℝ) : ℝ :=
  if 0 < x then Real.arctan (y / x)
  else if x < 0 then
    (if 0 ≤ y then Real.arctan (y / x) + Real.pi else Real.arctan (y / x) - Real.pi)
  else (if 0 < y then Real.pi / 2 else if y < 0 then -(Real.pi / 2) else 0)

/-- The two arrays `calc_angles` prints: the elevations `arcsin z` and the
azimuths `-arctan2 x y` wrapped into `[0, 2π)`, both converted to degrees. -/
noncomputable def calc_angles (cartesian : List (ℝ × ℝ × ℝ)) : List ℝ × List ℝ :=
  (cartesian.map fun v => Real.arcsin v.2.2 * 180 / Real.pi,
   cartesian.map fun v =>
     (fun t => (if t < 0 then 2 * Real.pi + t else t) * 180 / Real.pi)
       (-arctan2 v.1 v.2.1))

/-- The tetrahedron rows as coordinate triples, the argument of the
module-level `calc_angles(tetrahedron)` call. -/
noncomputable def tetraRows : List (ℝ × ℝ × ℝ) :=
  (List.finRange 4).map fun i => (tetrahedron i 0, tetrahedron i 1, tetrahedron i 2)

/-- The elevation-angle array printed at import time. -/
noncomputable def importPhiDeg : List ℝ := (calc_angles tetraRows).1

/-- The azimuth-angle array printed at import time. -/
noncomputable def importThetaDeg : List ℝ := (calc_angles tetraRows).2

/-- Externally visible I/O events of one invocation, in program order. -/
inductive Event
  | printArr (xs : List ℝ)
  | printUsage
  | openInput
  | openOutput
  | writeLines (ls : List OutLine)
  | indexError

/-- Failure modes of a run, after the module-level prints. -/
inductive RunError
  | usage
  | indexOutOfRange

/-- The I/O events of one invocation with argument vector `argv` (program
name included) on dataset `d`, in program order: the module-level
`calc_angles(tetrahedron)` prints happen first, then the argument-count
check, the input read, the `hrirs` indexing (which can fail with
IndexError), and only then the output file is opened and written. -/
noncomputable def trace (argv : List String) (d : Dataset) : List Event :=
  Event.printArr importPhiDeg :: Event.printArr importThetaDeg ::
    (if argv.length ≠ 3 then [Event.printUsage]
     else Event.openInput ::
       (match hrirsOf d.ir with
        | none => [Event.indexError]
        | some hs => [Event.openOutput, Event.writeLines (outputLines d.fs hs)]))

/-- The computational result of one invocation: the usage error, the
unrecovered IndexError, or the list of output lines written. -/
noncomputable def run (argv : List String) (d : Dataset) : Except RunError (List OutLine) :=
  if argv.length ≠ 3 then Except.error RunError.usage
  else match hrirsOf d.ir with
    | none => Except.error RunError.indexOutOfRange
    | some hs => Except.ok (outputLines d.fs hs)

/-! ## Concrete datasets used as witnesses and counterexamples -/

/-- Dataset of 1277 empty measurements: large enough for all the hand-picked
indices of the tetrahedral mode. -/
noncomputable def dsBig : Dataset := ⟨[], List.replicate 1277 ([], []), 48000⟩

/-- Dataset with an empty `Data.IR`. -/
noncomputable def dsEmpty : Dataset := ⟨[], [], 0⟩

/-- Dataset of 1277 copies of the stereo measurement `([1], [2])`. -/
noncomputable def dsC9 : Dataset := ⟨[], List.replicate 1277 ([1], [2]), 48000⟩

/-- `Data.IR` for Scenario B: 1277 measurements with distinct known values at
the five hand-picked indices. -/
noncomputable def irB : List Meas :=
  (((((List.replicate 1277 (([0], [0]) : Meas)).set 21 ([1], [1])).set 796
    ([3], [3])).set 289 ([5], [5])).set 777 ([6], [6])).set 1276 ([7], [7])

/-- Scenario B dataset. -/
noncomputable def dsB : Dataset := ⟨[], irB, 48000⟩

/-! ## The nearest-match selector

The commented-out selector of the script,
`np.argmin(np.sum((pos[:, :2] - vs)**2, axis=1))` per target direction. -/

/-- Squared Euclidean distance between the first two stored fields of a
measured position and one target direction. -/
noncomputable def sqDist (p : List ℝ) (vs : ℝ × ℝ) : ℝ :=
  (p.getD 0 0 - vs.1) ^ 2 + (p.getD 1 0 - vs.2) ^ 2

/-- Minimum value of a list (`0` for the empty list, which numpy rejects). -/
noncomputable def minVal : List ℝ → ℝ
  | [] => 0
  | [x] => x
  | x :: y :: t => min x (minVal (y :: t))

/-- `np.argmin`: the first index attaining the minimum (`0` for the empty
list, which numpy rejects). -/
noncomputable def argminL : List ℝ → ℕ
  | [] => 0
  | [_] => 0
  | x :: y :: t => if minVal (y :: t) < x then argminL (y :: t) + 1 else 0

/-- The nearest-match selector for one target `vs`. -/
noncomputable def nearestIdx (pos : List (List ℝ)) (vs : ℝ × ℝ) : ℕ :=
  argminL (pos.map fun p => sqDist p vs)

/-! ## Supporting lemmas -/

lemma sqrt23_sq : Real.sqrt (2 / 3) * Real.sqrt (2 / 3) = 2 / 3 :=
  Real.mul_self_sqrt (by norm_num)

lemma sqrt29_sq : Real.sqrt (2 / 9) * Real.sqrt (2 / 9) = 2 / 9 :=
  Real.mul_self_sqrt (by norm_num)

lemma sqrt89_sq : Real.sqrt (8 / 9) * Real.sqrt (8 / 9) = 8 / 9 :=
  Real.mul_self_sqrt (by norm_num)

lemma sqrt2_sq : Real.sqrt 2 * Real.sqrt 2 = 2 :=
  Real.mul_self_sqrt (by norm_num)

lemma sqrt29_mul_sqrt89 : Real.sqrt (2 / 9) * Real.sqrt (8 / 9) = 4 / 9 := by
  rw [← Real.sqrt_mul (by norm_num : (0:ℝ) ≤ 2 / 9)]
  rw [show (2 / 9 * (8 / 9) : ℝ) = (4 / 9) ^ 2 by norm_num]
  exact Real.sqrt_sq (by norm_num)

lemma sqrt89_eq : Real.sqrt (8 / 9) = 2 * Real.sqrt (2 / 9) := by
  rw [show (8 / 9 : ℝ) = 4 * (2 / 9) by norm_num,
    Real.sqrt_mul (by norm_num : (0:ℝ) ≤ 4),
    show (4 : ℝ) = 2 ^ 2 by norm_num, Real.sqrt_sq (by norm_num : (0:ℝ) ≤ 2)]

lemma inv_sqrt2_mul : 1 / Real.sqrt 2 * (1 / Real.sqrt 2) = 1 / 2 := by
  rw [div_mul_div_comm, sqrt2_sq, one_mul]

lemma normSqT_eq_one : ∀ i : Fin 4, normSqT i = 1 := by
  intro i
  fin_cases i <;>
    simp only [normSqT, Fin.sum_univ_three, tetrahedron]
  · linear_combination sqrt23_sq + sqrt29_sq
  · linear_combination sqrt23_sq + sqrt29_sq
  · linear_combination sqrt89_sq
  · norm_num

lemma dotT_eq (i j : Fin 4) (h : i ≠ j) : dotT i j = -(1 / 3) := by
  fin_cases i <;> fin_cases j <;>
    first
      | exact absurd rfl h
      | (simp only [dotT, Fin.sum_univ_three, tetrahedron]
         first
           | linear_combination -sqrt23_sq + sqrt29_sq
           | linear_combination -sqrt29_mul_sqrt89
           | norm_num)

lemma CtC_diag_zero : CtC 0 0 = 2 := by
  simp only [CtC, Fin.sum_univ_four, C, tetrahedron]
  linear_combination 4 * inv_sqrt2_mul

lemma CtC_diag_one : CtC 1 1 = 4 / 3 := by
  simp only [CtC, Fin.sum_univ_four, C, tetrahedron]
  linear_combination 2 * sqrt23_sq

lemma CtC_diag (j : Fin 4) (h : j ≠ 0) : CtC j j = 4 / 3 := by
  fin_cases j
  · exact absurd rfl h
  · simp only [CtC, Fin.sum_univ_four, C, tetrahedron]
    linear_combination 2 * sqrt23_sq
  · simp only [CtC, Fin.sum_univ_four, C, tetrahedron]
    linear_combination 2 * sqrt29_sq + sqrt89_sq
  · simp only [CtC, Fin.sum_univ_four, C, tetrahedron]
    norm_num

lemma CtC_offdiag (j k : Fin 4) (h : j ≠ k) : CtC j k = 0 := by
  fin_cases j <;> fin_cases k <;>
    first
      | exact absurd rfl h
      | (simp only [CtC, Fin.sum_univ_four, C, tetrahedron]
         first
           | ring1
           | linear_combination (1 / Real.sqrt 2) * sqrt89_eq
           | linear_combination -(1 / Real.sqrt 2) * sqrt89_eq
           | linear_combination (1 / 3) * sqrt89_eq)

lemma hrirsOf_eq_some (ir : List Meas) (m0 m1 m2 ma mb : Meas)
    (h289 : ir[289]? = some m0) (h1276 : ir[1276]? = some m1)
    (h777 : ir[777]? = some m2) (h21 : ir[21]? = some ma)
    (h796 : ir[796]? = some mb) :
    hrirsOf ir = some [scaleMeas m0, scaleMeas m1, scaleMeas m2,
                       avgMeas (scaleMeas ma) (scaleMeas mb)] := by
  simp only [hrirsOf, scaleIR, List.getElem?_map, h289, h1276, h777, h21, h796,
    Option.map_some', Option.some_bind]

lemma hrirsOf_eq_none (ir : List Meas) (hshort : ir.length < 1277) :
    hrirsOf ir = none := by
  have hlen : (scaleIR ir).length ≤ 1276 := by
    simp only [scaleIR, List.length_map]
    omega
  have h1276 : (scaleIR ir)[1276]? = none := List.getElem?_eq_none hlen
  simp only [hrirsOf]
  cases h : (scaleIR ir)[289]? <;> simp [h, h1276]

lemma dsBig_len : dsBig.ir.length = 1277 := by
  rw [show dsBig.ir = List.replicate 1277 ([], []) from rfl, List.length_replicate]

lemma getElem?_zipWith {f : ℝ → ℝ → ℝ} : ∀ (l1 l2 : List ℝ) (n : ℕ) (x y : ℝ),
    l1[n]? = some x → l2[n]? = some y →
    (List.zipWith f l1 l2)[n]? = some (f x y) := by
  intro l1
  induction l1 with
  | nil =>
    intro l2 n x y h1 _
    simp at h1
  | cons a l ih =>
    intro l2 n x y h1 h2
    cases l2 with
    | nil => simp at h2
    | cons b l2t =>
      cases n with
      | zero =>
        simp only [List.getElem?_cons_zero, Option.some.injEq] at h1 h2
        subst h1
        subst h2
        simp
      | succ m =>
        simp only [List.getElem?_cons_succ] at h1 h2
        simpa using ih l2t m x y h1 h2

lemma scaleMeas_fst (m : Meas) (t : ℕ) (x : ℝ) (hx : m.1[t]? = some x) :
    (scaleMeas m).1[t]? = some (10 * x) := by
  simp [scaleMeas, List.getElem?_map, hx]

lemma scaleMeas_snd (m : Meas) (t : ℕ) (x : ℝ) (hx : m.2[t]? = some x) :
    (scaleMeas m).2[t]? = some (10 * x) := by
  simp [scaleMeas, List.getElem?_map, hx]

lemma avg_scaled_fst (ma mb : Meas) (t : ℕ) (x y : ℝ)
    (hx : ma.1[t]? = some x) (hy : mb.1[t]? = some y) :
    (avgMeas (scaleMeas ma) (scaleMeas mb)).1[t]? = some (10 * ((x + y) / 2)) := by
  simp only [avgMeas]
  rw [getElem?_zipWith _ _ t (10 * x) (10 * y) (scaleMeas_fst ma t x hx)
    (scaleMeas_fst mb t y hy)]
  exact congrArg some (by ring)

lemma avg_scaled_snd (ma mb : Meas) (t : ℕ) (x y : ℝ)
    (hx : ma.2[t]? = some x) (hy : mb.2[t]? = some y) :
    (avgMeas (scaleMeas ma) (scaleMeas mb)).2[t]? = some (10 * ((x + y) / 2)) := by
  simp only [avgMeas]
  rw [getElem?_zipWith _ _ t (10 * x) (10 * y) (scaleMeas_snd ma t x hx)
    (scaleMeas_snd mb t y hy)]
  exact congrArg some (by ring)

lemma dsC9_get (n : ℕ) (hn : n < 1277) : dsC9.ir[n]? = some ([1], [2]) := by
  rw [show dsC9.ir = List.replicate 1277 (([1], [2]) : Meas) from rfl,
    List.getElem?_replicate]
  simp [hn]

lemma irB_21 : irB[21]? = some ([1], [1]) := by
  rw [irB, List.getElem?_set_ne (by norm_num), List.getElem?_set_ne (by norm_num),
    List.getElem?_set_ne (by norm_num), List.getElem?_set_ne (by norm_num)]
  exact List.getElem?_set_self (by rw [List.length_replicate]; norm_num)

lemma irB_796 : irB[796]? = some ([3], [3]) := by
  rw [irB, List.getElem?_set_ne (by norm_num), List.getElem?_set_ne (by norm_num),
    List.getElem?_set_ne (by norm_num)]
  exact List.getElem?_set_self
    (by rw [List.length_set, List.length_replicate]; norm_num)

lemma irB_289 : irB[289]? = some ([5], [5]) := by
  rw [irB, List.getElem?_set_ne (by norm_num), List.getElem?_set_ne (by norm_num)]
  exact List.getElem?_set_self
    (by rw [List.length_set, List.length_set, List.length_replicate]; norm_num)

lemma irB_777 : irB[777]? = some ([6], [6]) := by
  rw [irB, List.getElem?_set_ne (by norm_num)]
  exact List.getElem?_set_self
    (by rw [List.length_set, List.length_set, List.length_set,
      List.length_replicate]; norm_num)

lemma irB_1276 : irB[1276]? = some ([7], [7]) := by
  rw [irB]
  exact List.getElem?_set_self
    (by rw [List.length_set, List.length_set, List.length_set, List.length_set,
      List.length_replicate]; norm_num)

lemma argminL_lt_length : ∀ l : List ℝ, l ≠ [] → argminL l < l.length := by
  intro l
  induction l with
  | nil => intro h0; exact absurd rfl h0
  | cons x xs ih =>
    intro _
    cases xs with
    | nil => simp [argminL]
    | cons y t =>
      simp only [argminL]
      by_cases hlt : minVal (y :: t) < x
      · rw [if_pos hlt]
        have := ih (by simp)
        simp only [List.length_cons] at this ⊢
        omega
      · rw [if_neg hlt]
        simp

lemma minVal_le : ∀ (l : List ℝ) (i : ℕ), i < l.length → minVal l ≤ l.getD i 0 := by
  intro l
  induction l with
  | nil =>
    intro i hi
    simp at hi
  | cons x xs ih =>
    intro i hi
    cases xs with
    | nil =>
      cases i with
      | zero => simp [minVal]
      | succ m =>
        simp only [List.length_cons, List.length_nil] at hi
        omega
    | cons y t =>
      cases i with
      | zero =>
        simp only [minVal, List.getD_cons_zero]
        exact min_le_left _ _
      | succ m =>
        have hm : m < (y :: t).length := by
          simp only [List.length_cons] at hi ⊢
          omega
        simp only [minVal, List.getD_cons_succ]
        exact le_trans (min_le_right _ _) (ih m hm)

lemma getD_argminL : ∀ l : List ℝ, l ≠ [] → l.getD (argminL l) 0 = minVal l := by
  intro l
  induction l with
  | nil => intro h0; exact absurd rfl h0
  | cons x xs ih =>
    intro _
    cases xs with
    | nil => simp [argminL, minVal]
    | cons y t =>
      by_cases hlt : minVal (y :: t) < x
      · simp only [argminL, minVal, if_pos hlt, List.getD_cons_succ]
        rw [ih (by simp)]
        exact (min_eq_right (le_of_lt hlt)).symm
      · simp only [argminL, minVal, if_neg hlt, List.getD_cons_zero]
        exact (min_eq_left (le_of_not_lt hlt)).symm

lemma minVal_lt_of_lt_argminL :
    ∀ (l : List ℝ) (i : ℕ), i < argminL l → minVal l < l.getD i 0 := by
  intro l
  induction l with
  | nil =>
    intro i hi
    simp [argminL] at hi
  | cons x xs ih =>
    intro i hi
    cases xs with
    | nil => simp [argminL] at hi
    | cons y t =>
      by_cases hlt : minVal (y :: t) < x
      · simp only [argminL, if_pos hlt] at hi
        cases i with
        | zero =>
          simp only [minVal, List.getD_cons_zero]
          exact lt_of_le_of_lt (min_le_right _ _) hlt
        | succ m =>
          have hm : m < argminL (y :: t) := by omega
          simp only [minVal, List.getD_cons_succ]
          exact lt_of_le_of_lt (min_le_right _ _) (ih m hm)
      · simp only [argminL, if_neg hlt] at hi
        omega

lemma getD_map_sqDist (pos : List (List ℝ)) (vs : ℝ × ℝ) (i : ℕ)
    (hi : i < pos.length) :
    (pos.map fun p => sqDist p vs).getD i 0 = sqDist (pos.getD i []) vs := by
  simp [List.getD_eq_getElem?_getD, List.getElem?_map, List.getElem?_eq_getElem hi]

/-! ## The claims -/

/-- C4: the decode matrix is the transpose of the encode matrix: `CI = C.T`
entrywise (`CI i j = C j i`); both are `Fin 4`-indexed, so CI is a 4×N matrix
with N = 4. -/
theorem C4_decode_is_transpose : ∀ i j : Fin 4, CI i j = C j i :=
  fun _ _ => rfl

/-- C5: row `i` of the encode matrix is `[1/√2, xᵢ, yᵢ, zᵢ]`, where
`(xᵢ, yᵢ, zᵢ)` is the `i`-th grid direction — a unit vector (squared norm 1):
the projection of a unit plane wave onto the channels W, X, Y, Z. -/
theorem C5_encode_rows : ∀ i : Fin 4,
    C i 0 = 1 / Real.sqrt 2 ∧ C i 1 = tetrahedron i 0 ∧
    C i 2 = tetrahedron i 1 ∧ C i 3 = tetrahedron i 2 ∧ normSqT i = 1 :=
  fun i => ⟨rfl, rfl, rfl, rfl, normSqT_eq_one i⟩

/-- C6: each tetrahedral grid direction has unit Euclidean norm, and the four
directions form a regular tetrahedron: the inner product of any two distinct
directions is `-1/3` (so all pairwise inner products are equal). -/
theorem C6_regular_tetrahedron :
    (∀ i : Fin 4, normSqT i = 1) ∧
    ∀ i j : Fin 4, i ≠ j → dotT i j = -(1 / 3) :=
  ⟨normSqT_eq_one, dotT_eq⟩

/-- C6 witness: the unit-norm and inner-product facts at rows 0 and 1. -/
theorem C6_regular_tetrahedron_witness :
    normSqT 0 = 1 ∧ (0 : Fin 4) ≠ 1 ∧ dotT 0 1 = -(1 / 3) :=
  ⟨C6_regular_tetrahedron.1 0, by decide,
   C6_regular_tetrahedron.2 0 1 (by decide)⟩

/-- C3 counterexample: `Cᵗ·C` is not a scaled identity matrix, not even within
tolerance 1/3: its diagonal entry (0,0) is 2 while (1,1) is 4/3, so no scalar
`s` makes `Cᵗ·C = s·I₄`, and for every `s` at least one of the two entries is
at least 1/3 away from `s`. -/
theorem C3_counterexample :
    (¬ ∃ s : ℝ, ∀ j k : Fin 4, CtC j k = if j = k then s else 0) ∧
    ∀ s : ℝ, 1 / 3 ≤ |CtC 0 0 - s| ∨ 1 / 3 ≤ |CtC 1 1 - s| := by
  constructor
  · rintro ⟨s, hs⟩
    have h0 := hs 0 0
    have h1 := hs 1 1
    rw [CtC_diag_zero] at h0
    rw [CtC_diag_one] at h1
    simp only [if_pos rfl] at h0 h1
    linarith
  · intro s
    rw [CtC_diag_zero, CtC_diag_one]
    by_contra hcon
    push_neg at hcon
    obtain ⟨a, b⟩ := hcon
    rw [abs_lt] at a
    rw [abs_lt] at b
    linarith [a.1, a.2, b.1, b.2]

/-- C3 (amended): `Cᵗ·C` is exactly diagonal — the four columns of the encode
matrix are mutually orthogonal — with diagonal `(2, 4/3, 4/3, 4/3)`: the three
direction columns share squared norm 4/3 while the W column has squared norm
2, so `Cᵗ·C` is a scaled identity only on the X,Y,Z block, not globally. -/
theorem C3_CtC_diagonal :
    CtC 0 0 = 2 ∧ (∀ j : Fin 4, j ≠ 0 → CtC j j = 4 / 3) ∧
    ∀ j k : Fin 4, j ≠ k → CtC j k = 0 :=
  ⟨CtC_diag_zero, CtC_diag, CtC_offdiag⟩

/-- C3 witness: concrete entries of `Cᵗ·C` away from index 0. -/
theorem C3_CtC_diagonal_witness :
    (1 : Fin 4) ≠ 0 ∧ CtC 1 1 = 4 / 3 ∧ (0 : Fin 4) ≠ 1 ∧ CtC 0 1 = 0 :=
  ⟨by decide, C3_CtC_diagonal.2.1 1 (by decide), by decide,
   C3_CtC_diagonal.2.2 0 1 (by decide)⟩

/-- C1: on a successful run (argument count 3, `Data.IR` with at least 1277
measurements), the output is exactly: the sampling-rate line, a blank line,
then exactly 4 groups — one per virtual-speaker feed — each group 3 rows (the
encode-matrix row of 4 values, the left-ear samples, the right-ear samples)
followed by a terminating blank line; row values are rendered joined with the
separator ", " (the decimal formatting of a value is the abstract `fmt`). -/
theorem C1_output_layout (argv : List String) (d : Dataset)
    (hargv : argv.length = 3) (hlen : 1277 ≤ d.ir.length) :
    ∃ g0 g1 g2 g3 : Meas,
      hrirsOf d.ir = some [g0, g1, g2, g3] ∧
      run argv d = Except.ok
        [OutLine.num d.fs, OutLine.blank,
         OutLine.row (colCI 0), OutLine.row g0.1, OutLine.row g0.2, OutLine.blank,
         OutLine.row (colCI 1), OutLine.row g1.1, OutLine.row g1.2, OutLine.blank,
         OutLine.row (colCI 2), OutLine.row g2.1, OutLine.row g2.2, OutLine.blank,
         OutLine.row (colCI 3), OutLine.row g3.1, OutLine.row g3.2, OutLine.blank] ∧
      (∀ i : Fin 4, colCI i = [C i 0, C i 1, C i 2, C i 3]) ∧
      ∀ fmt xs, renderLine fmt (OutLine.row xs) =
        String.intercalate ", " (List.map fmt xs) := by
  obtain ⟨m0, h289⟩ : ∃ m, d.ir[289]? = some m := by
    rw [List.getElem?_eq_getElem (by omega)]
    exact ⟨_, rfl⟩
  obtain ⟨m1, h1276⟩ : ∃ m, d.ir[1276]? = some m := by
    rw [List.getElem?_eq_getElem (by omega)]
    exact ⟨_, rfl⟩
  obtain ⟨m2, h777⟩ : ∃ m, d.ir[777]? = some m := by
    rw [List.getElem?_eq_getElem (by omega)]
    exact ⟨_, rfl⟩
  obtain ⟨ma, h21⟩ : ∃ m, d.ir[21]? = some m := by
    rw [List.getElem?_eq_getElem (by omega)]
    exact ⟨_, rfl⟩
  obtain ⟨mb, h796⟩ : ∃ m, d.ir[796]? = some m := by
    rw [List.getElem?_eq_getElem (by omega)]
    exact ⟨_, rfl⟩
  have hh := hrirsOf_eq_some d.ir m0 m1 m2 ma mb h289 h1276 h777 h21 h796
  refine ⟨scaleMeas m0, scaleMeas m1, scaleMeas m2,
    avgMeas (scaleMeas ma) (scaleMeas mb), hh, ?_, fun i => rfl, fun fmt xs => rfl⟩
  unfold run
  rw [if_neg (by omega), hh]
  rfl

/-- C1 witness: the layout theorem at a concrete 1277-measurement dataset. -/
theorem C1_output_layout_witness :
    (["sofa2hrir", "in.sofa", "out.hrir"] : List String).length = 3 ∧
    1277 ≤ dsBig.ir.length ∧
    (∃ g0 g1 g2 g3 : Meas,
      hrirsOf dsBig.ir = some [g0, g1, g2, g3] ∧
      run ["sofa2hrir", "in.sofa", "out.hrir"] dsBig = Except.ok
        [OutLine.num dsBig.fs, OutLine.blank,
         OutLine.row (colCI 0), OutLine.row g0.1, OutLine.row g0.2, OutLine.blank,
         OutLine.row (colCI 1), OutLine.row g1.1, OutLine.row g1.2, OutLine.blank,
         OutLine.row (colCI 2), OutLine.row g2.1, OutLine.row g2.2, OutLine.blank,
         OutLine.row (colCI 3), OutLine.row g3.1, OutLine.row g3.2, OutLine.blank] ∧
      (∀ i : Fin 4, colCI i = [C i 0, C i 1, C i 2, C i 3]) ∧
      ∀ fmt xs, renderLine fmt (OutLine.row xs) =
        String.intercalate ", " (List.map fmt xs)) :=
  ⟨rfl, by simp [dsBig_len],
   C1_output_layout ["sofa2hrir", "in.sofa", "out.hrir"] dsBig rfl (by simp [dsBig_len])⟩

/-- C8: in tetrahedral mode, when `Data.IR` has fewer than 1277 measurements
(so that a hand-picked index is out of range), the run stops with the
unrecovered IndexError: the trace is exactly the two import-time prints, the
input read and the index failure, and the output file is never opened nor
written. -/
theorem C8_short_dataset (argv : List String) (d : Dataset)
    (hargv : argv.length = 3) (hshort : d.ir.length < 1277) :
    trace argv d =
      [Event.printArr importPhiDeg, Event.printArr importThetaDeg,
       Event.openInput, Event.indexError] ∧
    Event.openOutput ∉ trace argv d ∧
    ∀ ls, Event.writeLines ls ∉ trace argv d := by
  have hnone := hrirsOf_eq_none d.ir hshort
  have htr : trace argv d =
      [Event.printArr importPhiDeg, Event.printArr importThetaDeg,
       Event.openInput, Event.indexError] := by
    simp [trace, hargv, hnone]
  refine ⟨htr, ?_, ?_⟩
  · rw [htr]
    simp
  · intro ls
    rw [htr]
    simp

/-- C8 witness: the IndexError trace on an empty dataset. -/
theorem C8_short_dataset_witness :
    (["sofa2hrir", "in.sofa", "out.hrir"] : List String).length = 3 ∧
    dsEmpty.ir.length < 1277 ∧
    trace ["sofa2hrir", "in.sofa", "out.hrir"] dsEmpty =
      [Event.printArr importPhiDeg, Event.printArr importThetaDeg,
       Event.openInput, Event.indexError] ∧
    Event.openOutput ∉ trace ["sofa2hrir", "in.sofa", "out.hrir"] dsEmpty :=
  ⟨rfl, by simp [dsEmpty],
   (C8_short_dataset ["sofa2hrir", "in.sofa", "out.hrir"] dsEmpty rfl
      (by simp [dsEmpty])).1,
   (C8_short_dataset ["sofa2hrir", "in.sofa", "out.hrir"] dsEmpty rfl
      (by simp [dsEmpty])).2.1⟩

/-- C9: every impulse-response sample put into the output groups is 10 times
the corresponding raw `Data.IR` sample for the first three feeds (the fixed
constant 10 is applied to the whole array before assembly), and 10 times the
mean of the raw samples at indices 21 and 796 for the fourth feed. -/
theorem C9_gain_ten (d : Dataset) (m0 m1 m2 ma mb : Meas)
    (h289 : d.ir[289]? = some m0) (h1276 : d.ir[1276]? = some m1)
    (h777 : d.ir[777]? = some m2) (h21 : d.ir[21]? = some ma)
    (h796 : d.ir[796]? = some mb) :
    hrirsOf d.ir = some [scaleMeas m0, scaleMeas m1, scaleMeas m2,
                         avgMeas (scaleMeas ma) (scaleMeas mb)] ∧
    (∀ m : Meas, ∀ t : ℕ, ∀ x : ℝ,
      (m.1[t]? = some x → (scaleMeas m).1[t]? = some (10 * x)) ∧
      (m.2[t]? = some x → (scaleMeas m).2[t]? = some (10 * x))) ∧
    ∀ t : ℕ, ∀ x y : ℝ,
      (ma.1[t]? = some x → mb.1[t]? = some y →
        (avgMeas (scaleMeas ma) (scaleMeas mb)).1[t]? = some (10 * ((x + y) / 2))) ∧
      (ma.2[t]? = some x → mb.2[t]? = some y →
        (avgMeas (scaleMeas ma) (scaleMeas mb)).2[t]? = some (10 * ((x + y) / 2))) := by
  refine ⟨hrirsOf_eq_some d.ir m0 m1 m2 ma mb h289 h1276 h777 h21 h796, ?_, ?_⟩
  · intro m t x
    exact ⟨scaleMeas_fst m t x, scaleMeas_snd m t x⟩
  · intro t x y
    exact ⟨avg_scaled_fst ma mb t x y, avg_scaled_snd ma mb t x y⟩

/-- C9 witness: the gain theorem at a concrete dataset. -/
theorem C9_gain_ten_witness :
    dsC9.ir[289]? = some ([1], [2]) ∧
    (hrirsOf dsC9.ir = some [scaleMeas ([1], [2]), scaleMeas ([1], [2]),
        scaleMeas ([1], [2]), avgMeas (scaleMeas ([1], [2])) (scaleMeas ([1], [2]))] ∧
      (∀ m : Meas, ∀ t : ℕ, ∀ x : ℝ,
        (m.1[t]? = some x → (scaleMeas m).1[t]? = some (10 * x)) ∧
        (m.2[t]? = some x → (scaleMeas m).2[t]? = some (10 * x))) ∧
      ∀ t : ℕ, ∀ x y : ℝ,
        ((([1], [2]) : Meas).1[t]? = some x → (([1], [2]) : Meas).1[t]? = some y →
          (avgMeas (scaleMeas (([1], [2]) : Meas)) (scaleMeas (([1], [2]) : Meas))).1[t]? =
            some (10 * ((x + y) / 2))) ∧
        ((([1], [2]) : Meas).2[t]? = some x → (([1], [2]) : Meas).2[t]? = some y →
          (avgMeas (scaleMeas (([1], [2]) : Meas)) (scaleMeas (([1], [2]) : Meas))).2[t]? =
            some (10 * ((x + y) / 2)))) :=
  ⟨dsC9_get 289 (by norm_num),
   C9_gain_ten dsC9 ([1], [2]) ([1], [2]) ([1], [2]) ([1], [2]) ([1], [2])
     (dsC9_get 289 (by norm_num)) (dsC9_get 1276 (by norm_num))
     (dsC9_get 777 (by norm_num)) (dsC9_get 21 (by norm_num))
     (dsC9_get 796 (by norm_num))⟩

/-- C2 counterexample: on the Scenario B dataset the 4th output group's
left-ear row is `[20]` — 10 times the average of the raw responses `[1]` at
index 21 and `[3]` at index 796 — while their elementwise average is `[2]`,
and the two rows differ, so the 4th group does not equal the plain average of
the measured impulse responses. -/
theorem C2_counterexample :
    ∃ lines, run ["sofa2hrir", "in.sofa", "out.hrir"] dsB = Except.ok lines ∧
      lines.length = 18 ∧
      lines[15]? = some (OutLine.row [20]) ∧
      List.zipWith (fun x y => (x + y) / 2) ([1] : List ℝ) [3] = [2] ∧
      OutLine.row ([20] : List ℝ) ≠ OutLine.row [2] := by
  have hh := hrirsOf_eq_some dsB.ir ([5], [5]) ([7], [7]) ([6], [6]) ([1], [1])
    ([3], [3]) irB_289 irB_1276 irB_777 irB_21 irB_796
  refine ⟨outputLines dsB.fs [scaleMeas ([5], [5]), scaleMeas ([7], [7]),
    scaleMeas ([6], [6]), avgMeas (scaleMeas ([1], [1])) (scaleMeas ([3], [3]))],
    ?_, rfl, ?_, ?_, ?_⟩
  · unfold run
    rw [if_neg (by norm_num), hh]
  · rw [show ((20 : ℝ)) = (10 * 1 + 10 * 3) / 2 by norm_num]
    rfl
  · refine congrArg (fun v => [v]) ?_
    norm_num
  · intro hcon
    rw [OutLine.row.injEq, List.cons.injEq] at hcon
    have := hcon.1
    norm_num at this

/-- C2 (amended): in tetrahedral mode, for every dataset providing the five
hand-picked measurement indices, the output has exactly 4 groups (18 lines)
and the 4th group's impulse response is, elementwise, 10 times the average of
the raw impulse responses at indices 21 and 796 — equivalently, the average
of the two gain-scaled responses: the uniform ×10 gain applies on top of the
midpoint interpolation. -/
theorem C2_fourth_group_average (argv : List String) (d : Dataset)
    (hargv : argv.length = 3) (m0 m1 m2 ma mb : Meas)
    (h289 : d.ir[289]? = some m0) (h1276 : d.ir[1276]? = some m1)
    (h777 : d.ir[777]? = some m2) (h21 : d.ir[21]? = some ma)
    (h796 : d.ir[796]? = some mb) :
    ∃ lines, run argv d = Except.ok lines ∧ lines.length = 18 ∧
      lines[15]? = some (OutLine.row (avgMeas (scaleMeas ma) (scaleMeas mb)).1) ∧
      lines[16]? = some (OutLine.row (avgMeas (scaleMeas ma) (scaleMeas mb)).2) ∧
      ∀ t : ℕ, ∀ x y : ℝ,
        (ma.1[t]? = some x → mb.1[t]? = some y →
          (avgMeas (scaleMeas ma) (scaleMeas mb)).1[t]? = some (10 * ((x + y) / 2))) ∧
        (ma.2[t]? = some x → mb.2[t]? = some y →
          (avgMeas (scaleMeas ma) (scaleMeas mb)).2[t]? = some (10 * ((x + y) / 2))) := by
  have hh := hrirsOf_eq_some d.ir m0 m1 m2 ma mb h289 h1276 h777 h21 h796
  refine ⟨outputLines d.fs [scaleMeas m0, scaleMeas m1, scaleMeas m2,
    avgMeas (scaleMeas ma) (scaleMeas mb)], ?_, rfl, rfl, rfl, ?_⟩
  · unfold run
    rw [if_neg (by omega), hh]
  · intro t x y
    exact ⟨avg_scaled_fst ma mb t x y, avg_scaled_snd ma mb t x y⟩

/-- C2 witness: the amended theorem at the Scenario B dataset. -/
theorem C2_fourth_group_average_witness :
    (["sofa2hrir", "in.sofa", "out.hrir"] : List String).length = 3 ∧
    dsB.ir[21]? = some ([1], [1]) ∧ dsB.ir[796]? = some ([3], [3]) ∧
    (∃ lines, run ["sofa2hrir", "in.sofa", "out.hrir"] dsB = Except.ok lines ∧
      lines.length = 18 ∧
      lines[15]? = some
        (OutLine.row (avgMeas (scaleMeas (([1], [1]) : Meas))
          (scaleMeas (([3], [3]) : Meas))).1) ∧
      lines[16]? = some
        (OutLine.row (avgMeas (scaleMeas (([1], [1]) : Meas))
          (scaleMeas (([3], [3]) : Meas))).2) ∧
      ∀ t : ℕ, ∀ x y : ℝ,
        ((([1], [1]) : Meas).1[t]? = some x → (([3], [3]) : Meas).1[t]? = some y →
          (avgMeas (scaleMeas (([1], [1]) : Meas))
            (scaleMeas (([3], [3]) : Meas))).1[t]? = some (10 * ((x + y) / 2))) ∧
        ((([1], [1]) : Meas).2[t]? = some x → (([3], [3]) : Meas).2[t]? = some y →
          (avgMeas (scaleMeas (([1], [1]) : Meas))
            (scaleMeas (([3], [3]) : Meas))).2[t]? = some (10 * ((x + y) / 2)))) :=
  ⟨rfl, irB_21, irB_796,
   C2_fourth_group_average ["sofa2hrir", "in.sofa", "out.hrir"] dsB rfl
     ([5], [5]) ([7], [7]) ([6], [6]) ([1], [1]) ([3], [3])
     irB_289 irB_1276 irB_777 irB_21 irB_796⟩

/-- C7: whenever some measured position matches the target exactly in its
first two fields, the nearest-match selector returns an in-range index whose
squared distance to the target is 0, and every earlier index has nonzero
squared distance — the stable argmin returns the first exact match. -/
theorem C7_nearest_exact (pos : List (List ℝ)) (vs : ℝ × ℝ) (k : ℕ)
    (hk : k < pos.length)
    (hexact : (pos.getD k []).getD 0 0 = vs.1 ∧ (pos.getD k []).getD 1 0 = vs.2) :
    nearestIdx pos vs < pos.length ∧
    sqDist (pos.getD (nearestIdx pos vs) []) vs = 0 ∧
    ∀ i, i < nearestIdx pos vs → sqDist (pos.getD i []) vs ≠ 0 := by
  have hargl : nearestIdx pos vs = argminL (pos.map fun p => sqDist p vs) := rfl
  have hlen : (pos.map fun p => sqDist p vs).length = pos.length :=
    List.length_map _ _
  have hne : (pos.map fun p => sqDist p vs) ≠ [] := by
    intro h0
    have hc := congrArg List.length h0
    rw [hlen] at hc
    simp only [List.length_nil] at hc
    omega
  have hlt := argminL_lt_length _ hne
  rw [hlen] at hlt
  have hd0 : sqDist (pos.getD k []) vs = 0 := by
    obtain ⟨h1, h2⟩ := hexact
    simp only [sqDist]
    rw [h1, h2]
    ring
  have hminle : minVal (pos.map fun p => sqDist p vs) ≤ 0 := by
    have hle := minVal_le (pos.map fun p => sqDist p vs) k (by omega)
    rw [getD_map_sqDist pos vs k hk, hd0] at hle
    exact hle
  have hval : sqDist (pos.getD (nearestIdx pos vs) []) vs =
      minVal (pos.map fun p => sqDist p vs) := by
    rw [hargl, ← getD_map_sqDist pos vs _ hlt]
    exact getD_argminL _ hne
  have hnn : 0 ≤ sqDist (pos.getD (nearestIdx pos vs) []) vs := by
    simp only [sqDist]
    positivity
  have hmin0 : minVal (pos.map fun p => sqDist p vs) = 0 :=
    le_antisymm hminle (hval ▸ hnn)
  refine ⟨hlt, ?_, ?_⟩
  · rw [hval]
    exact hmin0
  · intro i hi
    rw [hargl] at hi
    have hi2 : i < pos.length := by omega
    have hgt := minVal_lt_of_lt_argminL _ i hi
    rw [getD_map_sqDist pos vs i hi2, hmin0] at hgt
    exact hgt.ne'

/-- C7 witness: the selector finds the exact match `[1, 2]` at index 1 of a
two-position set. -/
theorem C7_nearest_exact_witness :
    1 < ([[5, 5], [1, 2]] : List (List ℝ)).length ∧
    ((([[5, 5], [1, 2]] : List (List ℝ)).getD 1 []).getD 0 0 =
        (((1 : ℝ), (2 : ℝ))).1 ∧
      (([[5, 5], [1, 2]] : List (List ℝ)).getD 1 []).getD 1 0 =
        (((1 : ℝ), (2 : ℝ))).2) ∧
    (nearestIdx [[5, 5], [1, 2]] (1, 2) < ([[5, 5], [1, 2]] : List (List ℝ)).length ∧
      sqDist (([[5, 5], [1, 2]] : List (List ℝ)).getD
        (nearestIdx [[5, 5], [1, 2]] (1, 2)) []) (1, 2) = 0 ∧
      ∀ i, i < nearestIdx [[5, 5], [1, 2]] (1, 2) →
        sqDist (([[5, 5], [1, 2]] : List (List ℝ)).getD i []) (1, 2) ≠ 0) :=
  ⟨by norm_num, ⟨rfl, rfl⟩,
   C7_nearest_exact [[5, 5], [1, 2]] (1, 2) 1 (by norm_num) ⟨rfl, rfl⟩⟩

/-- C10: on every invocation — whatever the argument vector, including a
wrong argument count, and whatever the dataset — the trace begins with the
two module-level prints evaluated from `calc_angles(tetrahedron)`: the
elevation angles in degrees, then the azimuth angles in degrees; the printed
elevations are `arcsin zᵢ · 180/π` for the four grid rows, the last being
exactly 90. -/
theorem C10_import_prints_first (argv : List String) (d : Dataset) :
    (trace argv d).take 2 =
      [Event.printArr importPhiDeg, Event.printArr importThetaDeg] ∧
    importPhiDeg =
      [Real.arcsin (tetrahedron 0 2) * 180 / Real.pi,
       Real.arcsin (tetrahedron 1 2) * 180 / Real.pi,
       Real.arcsin (tetrahedron 2 2) * 180 / Real.pi, 90] := by
  constructor
  · rfl
  · have h90 : Real.arcsin (tetrahedron 3 2) * 180 / Real.pi = 90 := by
      rw [show tetrahedron 3 2 = (1 : ℝ) from rfl, Real.arcsin_one]
      field_simp
      ring
    rw [show importPhiDeg =
        [Real.arcsin (tetrahedron 0 2) * 180 / Real.pi,
         Real.arcsin (tetrahedron 1 2) * 180 / Real.pi,
         Real.arcsin (tetrahedron 2 2) * 180 / Real.pi,
         Real.arcsin (tetrahedron 3 2) * 180 / Real.pi] from rfl, h90]

end Sofa2Hrir
